import Mathlib

/-!
Verification of the Naukri job-scraper repository.

The definitions below are a shallow embedding of the scraper module
(the enriched revision): the pure helper functions are translated
directly, and the page-effecting parts (navigation, the pagination
loop, the detail-page pass) are modelled by explicit outcome oracles
describing what each navigation attempt does, with the control flow of
the source reproduced over those outcomes.
-/

/-! ### JavaScript string primitives -/

/-- Character class of the regex class backslash-s and of trim:
JavaScript whitespace (space, tab, line terminators, NBSP, the Unicode
space separators, BOM). -/
def isJsWs (c : Char) : Bool :=
  let n := c.toNat
  n = 32 || n = 9 || n = 10 || n = 11 || n = 12 || n = 13 ||
  n = 160 || n = 0x1680 || (0x2000 ≤ n && n ≤ 0x200a) ||
  n = 0x2028 || n = 0x2029 || n = 0x202f || n = 0x205f || n = 0xfeff || n = 0x3000

/-- Character class of the regex class backslash-d: the ASCII digits. -/
def isDigitCh (c : Char) : Bool :=
  48 ≤ c.toNat && c.toNat ≤ 57

/-- JavaScript toLowerCase, on the character range the scraper meets. -/
def jsToLower (s : String) : String :=
  String.mk (s.data.map Char.toLower)

/-- JavaScript trim: drop leading and trailing whitespace. -/
def jsTrim (s : String) : String :=
  String.mk (((s.data.dropWhile isJsWs).reverse.dropWhile isJsWs).reverse)

/-- Pattern occurs at the head of the haystack. -/
def leadsWith : List Char → List Char → Bool
  | _, [] => true
  | [], _ :: _ => false
  | h :: hs, p :: ps => h == p && leadsWith hs ps

/-- Pattern occurs somewhere inside the haystack. -/
def occursIn (pat : List Char) : List Char → Bool
  | [] => pat.isEmpty
  | c :: rest => leadsWith (c :: rest) pat || occursIn pat rest

/-- JavaScript s.includes(sub). -/
def jsIncludes (s sub : String) : Bool :=
  occursIn sub.data s.data

/-- JavaScript string-valued a-or-else-b: the empty string is falsy. -/
def jsOr (a b : String) : String :=
  if a = "" then b else a

/-- Uppercase hexadecimal digit for a value below 16. -/
def hexDigitChar (n : Nat) : Char :=
  Char.ofNat (if n < 10 then 48 + n else 55 + n)

/-- UTF-8 bytes of one code point, as encodeURIComponent encodes them. -/
def utf8Bytes (c : Char) : List Nat :=
  let n := c.toNat
  if n < 0x80 then [n]
  else if n < 0x800 then [0xC0 + n / 0x40, 0x80 + n % 0x40]
  else if n < 0x10000 then
    [0xE0 + n / 0x1000, 0x80 + (n / 0x40) % 0x40, 0x80 + n % 0x40]
  else
    [0xF0 + n / 0x40000, 0x80 + (n / 0x1000) % 0x40,
     0x80 + (n / 0x40) % 0x40, 0x80 + n % 0x40]

/-- Characters encodeURIComponent leaves as they are:
letters, digits, and - _ . ! ~ * ( ) and the apostrophe. -/
def isUriUnreserved (c : Char) : Bool :=
  let n := c.toNat
  (65 ≤ n && n ≤ 90) || (97 ≤ n && n ≤ 122) || (48 ≤ n && n ≤ 57) ||
  n = 45 || n = 95 || n = 46 || n = 33 || n = 126 || n = 42 || n = 39 ||
  n = 40 || n = 41

/-- Percent-encoding of one byte, uppercase hex. -/
def percentByte (b : Nat) : List Char :=
  [Char.ofNat 37, hexDigitChar (b / 16), hexDigitChar (b % 16)]

/-- JavaScript encodeURIComponent. -/
def encodeURIComponent (s : String) : String :=
  String.mk ((s.data.map (fun c =>
    if isUriUnreserved c then [c]
    else ((utf8Bytes c).map percentByte).flatten)).flatten)

/-- One step of collapsing whitespace runs: the flag records whether the
previous character was whitespace (so the run already emitted its hyphen). -/
def collapseWsAux : Bool → List Char → List Char
  | _, [] => []
  | prevWs, c :: rest =>
    if isJsWs c then
      if prevWs then collapseWsAux true rest
      else Char.ofNat 45 :: collapseWsAux true rest
    else c :: collapseWsAux false rest

/-- JavaScript s.replace(regex whitespace-run, hyphen) with the global flag:
every maximal whitespace run becomes one hyphen. -/
def collapseWs (s : String) : String :=
  String.mk (collapseWsAux false s.data)

/-! ### Skill matcher (function matchSkills of the scraper module) -/

/-- Translation of matchSkills: empty guard, then normalize both sides
(lowercase, trim) and keep every job skill with a bidirectional
substring hit against some configured skill. -/
def matchSkills (jobSkills configSkills : List String) : List String :=
  if configSkills.isEmpty || jobSkills.isEmpty then
    []
  else
    let normalizedConfigSkills := configSkills.map (fun s => jsTrim (jsToLower s))
    jobSkills.filter (fun skill =>
      let normalizedSkill := jsTrim (jsToLower skill)
      normalizedConfigSkills.any (fun configSkill =>
        jsIncludes normalizedSkill configSkill || jsIncludes configSkill normalizedSkill))

/-- Restatement of the skill-match predicate in the words of the spec:
there is a configured skill such that, after normalizing both, one is a
substring of the other. -/
def specMatchPred (configSkills : List String) (skill : String) : Bool :=
  configSkills.any (fun c =>
    jsIncludes (jsTrim (jsToLower c)) (jsTrim (jsToLower skill)) ||
    jsIncludes (jsTrim (jsToLower skill)) (jsTrim (jsToLower c)))

/-! ### Listing-pass extraction (method extractJobCards) -/

/-- One listing card, given by the results of the selector queries the
extraction runs against it: for each field, the textContent of the first
matching element when one exists (href for the link), and the list of
textContents of the skill tag elements. -/
structure RawCard where
  titleText : Option String
  linkHref : Option String
  companyText : Option String
  locationText : Option String
  expText : Option String
  salaryText : Option String
  skillTexts : List (Option String)
  descText : Option String
  dateText : Option String
deriving DecidableEq

/-- The optional-chain followed by trim: empty when the element is
missing, the trimmed textContent otherwise. -/
def resolveText (o : Option String) : String :=
  match o with
  | none => ""
  | some s => jsTrim s

/-- The listing record pushed by extractJobCards for one card. -/
structure JobListing where
  title : String
  company : String
  location : String
  experience : String
  salary : String
  skills : List String
  description : String
  jobUrl : String
  postedDate : String
  searchKeyword : String
deriving DecidableEq

/-- Body of the forEach of extractJobCards for one card: resolve every
field with its default, then push the record only when title, company
and job URL are all truthy. -/
def emitCard (searchKeyword : String) (card : RawCard) : Option JobListing :=
  let title := jsOr (resolveText card.titleText) ""
  let jobUrl := jsOr (card.linkHref.getD "") ""
  let company := jsOr (resolveText card.companyText) ""
  let location := jsOr (resolveText card.locationText) "Not specified"
  let experience := jsOr (resolveText card.expText) "Not specified"
  let salary := jsOr (resolveText card.salaryText) "Not disclosed"
  let skills := card.skillTexts.filterMap (fun o =>
    match o with
    | none => none
    | some s => if jsTrim s = "" then none else some (jsTrim s))
  let description := jsOr (resolveText card.descText) ""
  let postedDate := jsOr (resolveText card.dateText) "Not specified"
  if title ≠ "" ∧ company ≠ "" ∧ jobUrl ≠ "" then
    some { title, company, location, experience, salary, skills,
           description, jobUrl, postedDate, searchKeyword }
  else
    none

/-- Translation of extractJobCards: run the card body over every card of
the page, keeping the pushed records in order. -/
def extractJobCards (keyword : String) (cards : List RawCard) : List JobListing :=
  cards.filterMap (emitCard keyword)

/-! ### Detail pass (method scrapeJobDetails) -/

/-- The detail record of one job page. -/
structure JobDetail where
  fullDescription : String
  keySkills : List String
  industryTypes : List String
  jobPostedAt : String
  salaryOffered : String
  totalVacancy : String
deriving DecidableEq

/-- The record scrapeJobDetails sets up before the try block; it is
returned untouched on any fault. -/
def defaultJobDetail : JobDetail :=
  { fullDescription := ""
    keySkills := []
    industryTypes := []
    jobPostedAt := "Not specified"
    salaryOffered := "Not disclosed"
    totalVacancy := "Not specified" }

/-- What one attempt at a detail page does: the navigation throws, the
in-page evaluation throws, or the evaluation returns a detail record. -/
inductive DetailOutcome where
  | navFault
  | evalFault
  | ok (d : JobDetail)
deriving DecidableEq

/-- An oracle giving the outcome of visiting each job URL. -/
def DetailEnv := String → DetailOutcome

/-- Translation of scrapeJobDetails: on either fault the catch block
swallows the error and the prepared defaults are returned; on
success Object.assign overwrites every field with the page result. -/
def scrapeJobDetails (env : DetailEnv) (jobUrl : String) : JobDetail :=
  match env jobUrl with
  | .navFault => defaultJobDetail
  | .evalFault => defaultJobDetail
  | .ok d => d

/-- The page-context effects scrapeJobDetails performs, in order. -/
inductive DetailEvent where
  | openPage
  | navigate
  | evaluate
  | closePage
deriving DecidableEq

/-- Effect trace of scrapeJobDetails: the try block opens the context,
navigates, evaluates and closes; a throw jumps to the catch block, which
only logs, so the close call is skipped on both fault paths. -/
def detailTrace (env : DetailEnv) (jobUrl : String) : List DetailEvent :=
  match env jobUrl with
  | .navFault => [.openPage, .navigate]
  | .evalFault => [.openPage, .navigate, .evaluate]
  | .ok _ => [.openPage, .navigate, .evaluate, .closePage]

/-! ### Enrichment merge (body of the detail loop of scrapeJobs) -/

/-- The record a job holds after the merge step of scrapeJobs. -/
structure EnrichedJob where
  listing : JobListing
  fullDescription : String
  keySkills : List String
  industryTypes : List String
  jobPostedAt : String
  salaryOffered : String
  totalVacancy : String
  matchedSkills : List String
  experienceFilter : String
deriving DecidableEq

/-- JavaScript new Set spread: deduplicate keeping first occurrences. -/
def dedupFirstAux (seen : List String) : List String → List String
  | [] => []
  | s :: rest =>
    if seen.contains s then dedupFirstAux seen rest
    else s :: dedupFirstAux (s :: seen) rest

/-- Deduplication as the spread of a Set built from the list. -/
def jsSetDedup (l : List String) : List String :=
  dedupFirstAux [] l

/-- Merge step for one job when detail scraping is on: the detail fields
fall back through JavaScript or-chains (arrays are always truthy, so
industryTypes is taken as is), keySkills falls back to the listing
skills when the detail list is empty, and the matcher runs over the
deduplicated union of listing skills and keySkills. -/
def enrichJob (env : DetailEnv) (configSkills : List String)
    (experienceLabel : String) (job : JobListing) : EnrichedJob :=
  let details := scrapeJobDetails env job.jobUrl
  let keySkills := if details.keySkills.length > 0 then details.keySkills else job.skills
  let allJobSkills := jsSetDedup (job.skills ++ keySkills)
  { listing := job
    fullDescription := jsOr details.fullDescription ""
    keySkills := keySkills
    industryTypes := details.industryTypes
    jobPostedAt := jsOr details.jobPostedAt job.postedDate
    salaryOffered := jsOr details.salaryOffered job.salary
    totalVacancy := jsOr details.totalVacancy "Not specified"
    matchedSkills := matchSkills allJobSkills configSkills
    experienceFilter := experienceLabel }

/-- Merge step for one job when detail scraping is off: listing fields
are copied into the detail slots and the matcher runs over the listing
skills only. -/
def plainEnrich (configSkills : List String) (experienceLabel : String)
    (job : JobListing) : EnrichedJob :=
  { listing := job
    fullDescription := ""
    keySkills := job.skills
    industryTypes := []
    jobPostedAt := job.postedDate
    salaryOffered := job.salary
    totalVacancy := "Not specified"
    matchedSkills := matchSkills job.skills configSkills
    experienceFilter := experienceLabel }

/-! ### Search URL construction (method buildSearchUrl) -/

/-- The experience filter object of the configuration. -/
structure Experience where
  min : Option Nat
  max : Option Nat
deriving DecidableEq

/-- Translation of buildSearchUrl: slugified keyword in the path, page
suffix for every page other than 1, the raw keyword percent-encoded in
the query, and the experience bounds appended when present. -/
def buildSearchUrl (keyword : String) (pageNum : Nat)
    (experience : Option Experience) : String :=
  let encodedKeyword := encodeURIComponent (collapseWs (jsToLower keyword))
  let searchParam := encodeURIComponent keyword
  let url :=
    if pageNum = 1 then
      "https://www.naukri.com/" ++ encodedKeyword ++ "-jobs?k=" ++ searchParam
    else
      "https://www.naukri.com/" ++ encodedKeyword ++ "-jobs-" ++ toString pageNum
        ++ "?k=" ++ searchParam
  match experience with
  | none => url
  | some e =>
    if e.min.isSome || e.max.isSome then
      let url := url ++ (match e.min with
        | some m => "&niyoMinExp=" ++ toString m
        | none => "")
      url ++ (match e.max with
        | some m => "&niyoMaxExp=" ++ toString m
        | none => "")
    else
      url

/-- The search-URL template in the words of the spec: origin, slash,
slug plus jobs segment, a page suffix exactly for pages past the first,
the encoded keyword, and one query fragment per defined bound. -/
def specSearchUrl (keyword : String) (pageNum : Nat)
    (experience : Option Experience) : String :=
  let slug := encodeURIComponent (collapseWs (jsToLower keyword))
  let pageSuffix := if 2 ≤ pageNum then "-" ++ toString pageNum else ""
  let minPart := match experience with
    | some e => (match e.min with
        | some m => "&niyoMinExp=" ++ toString m
        | none => "")
    | none => ""
  let maxPart := match experience with
    | some e => (match e.max with
        | some m => "&niyoMaxExp=" ++ toString m
        | none => "")
    | none => ""
  "https://www.naukri.com/" ++ slug ++ "-jobs" ++ pageSuffix ++ "?k="
    ++ encodeURIComponent keyword ++ minPart ++ maxPart

/-! ### Pagination driver (method scrapeJobs) -/

/-- What one navigation to a search page does: the goto throws, the wait
for listing cards times out with none found, or the page loads with a
list of cards. -/
inductive PageOutcome where
  | navFault
  | noCards
  | loaded (cards : List RawCard)

/-- An oracle giving the outcome of each search page by page number. -/
def PageEnv := Nat → PageOutcome

/-- The configuration slice scrapeJobs reads. -/
structure ScrapeConfig where
  experience : Option Experience
  skills : List String
  scrapeDetails : Bool

/-- The experience label of scrapeJobs: empty without a filter, and with
one a min-dash-max years string where a missing (or zero-falsy) max
prints as any. -/
def configExperienceLabel (experience : Option Experience) : String :=
  match experience with
  | none => ""
  | some e =>
    (toString (e.min.getD 0)) ++ "-" ++
      (match e.max with
        | some m => if m = 0 then "any" else toString m
        | none => "any") ++ " yrs"

/-- One iteration of the page loop of scrapeJobs, recursing on the pages
left before the cap: a navigation fault throws on page 1 and breaks
otherwise, a card-wait timeout breaks, zero extracted cards breaks, and
a loaded page appends its (possibly enriched) records and advances. -/
def scrapePages (env : PageEnv) (detailEnv : DetailEnv) (keyword : String)
    (config : ScrapeConfig) :
    Nat → Nat → List EnrichedJob → Except String (List EnrichedJob)
  | _, 0, acc => .ok acc
  | pageNum, pagesLeft + 1, acc =>
    match env pageNum with
    | .navFault =>
      if pageNum = 1 then .error "Failed to scrape jobs"
      else .ok acc
    | .noCards => .ok acc
    | .loaded cards =>
      let jobs := extractJobCards keyword cards
      if jobs.isEmpty then .ok acc
      else
        let label := configExperienceLabel config.experience
        let enriched :=
          if config.scrapeDetails then
            jobs.map (enrichJob detailEnv config.skills label)
          else
            jobs.map (plainEnrich config.skills label)
        scrapePages env detailEnv keyword config (pageNum + 1) pagesLeft
          (acc ++ enriched)

/-- Translation of scrapeJobs: run the page loop from page 1 up to the
page cap with an empty accumulator. -/
def scrapeJobs (env : PageEnv) (detailEnv : DetailEnv) (keyword : String)
    (maxPages : Nat) (config : ScrapeConfig) : Except String (List EnrichedJob) :=
  scrapePages env detailEnv keyword config 1 maxPages []

/-- Whether a run raised. -/
def isErr (e : Except String (List EnrichedJob)) : Bool :=
  match e with
  | .error _ => true
  | .ok _ => false

/-- Number of records of a successful run. -/
def resultCount (e : Except String (List EnrichedJob)) : Option Nat :=
  match e with
  | .error _ => none
  | .ok l => some l.length

/-! ### Vacancy resolution inside the detail-page evaluation -/

/-- The parts of a rendered detail page the two vacancy passes read: the
label elements paired with their resolved value text, and the
textContents of all span and div elements. -/
structure DetailDom where
  labelPairs : List (String × String)
  textNodes : List String

/-- First maximal digit run of a string, as match with the digit-run
regex returns it. -/
def firstDigitRun : List Char → Option String
  | [] => none
  | c :: rest =>
    if isDigitCh c then some (String.mk ((c :: rest).takeWhile isDigitCh))
    else firstDigitRun rest

/-- Whether a string holds an ASCII digit. -/
def hasDigit (s : String) : Bool :=
  s.data.any isDigitCh

/-- Case-insensitive test for the word opening (the optional plural s of
the regex changes nothing about whether it matches). -/
def containsOpening (s : String) : Bool :=
  occursIn ("opening".data) (s.data.map Char.toLower)

/-- Leftmost match of the digits-whitespace-opening regex, returning the
captured digit group: at each starting digit the run is maximal, then
whitespace is skipped, then the word opening must follow, case
folded; no backtracking can help because a shortened digit run leaves a
digit where the word would have to start. -/
def matchOpenings : List Char → Option String
  | [] => none
  | c :: rest =>
    if isDigitCh c then
      let afterDigits := (c :: rest).dropWhile isDigitCh
      let afterWs := afterDigits.dropWhile isJsWs
      if leadsWith (afterWs.map Char.toLower) ("opening".data) then
        some (String.mk ((c :: rest).takeWhile isDigitCh))
      else
        matchOpenings rest
    else
      matchOpenings rest

/-- What one label pair writes into totalVacancy: when the trimmed,
lowercased label mentions vacancy or opening and the value text holds a
digit run, that run; otherwise nothing. -/
def vacancyLabelWrite (pair : String × String) : Option String :=
  let labelText := jsToLower (jsTrim pair.1)
  let valueText := jsTrim pair.2
  if jsIncludes labelText "vacancy" || jsIncludes labelText "opening" then
    firstDigitRun valueText.data
  else
    none

/-- What one short text node writes into totalVacancy in the second
pass: under the three guards, the captured digit group of the openings
regex when it matches. -/
def vacancyNodeWrite (node : String) : Option String :=
  let text := jsTrim node
  if containsOpening text && hasDigit text && text.data.length < 30 then
    matchOpenings text.data
  else
    none

/-- The label-pair pass over all labels, later writes overwriting
earlier ones, starting from the sentinel default. -/
def vacancyPass1 (pairs : List (String × String)) : String :=
  pairs.foldl (fun acc p => (vacancyLabelWrite p).getD acc) "Not specified"

/-- The regex pass over all span and div text nodes, later writes
overwriting earlier ones, starting from the first-pass result. -/
def vacancyPass2 (nodes : List String) (init : String) : String :=
  nodes.foldl (fun acc t => (vacancyNodeWrite t).getD acc) init

/-- Vacancy resolution of the detail evaluation: the label-pair scan
runs first, the regex scan second over its result. -/
def resolveVacancy (dom : DetailDom) : String :=
  vacancyPass2 dom.textNodes (vacancyPass1 dom.labelPairs)

/-- Last element of a write list, else the start value. -/
def lastWriteD (init : α) : List α → α
  | [] => init
  | x :: xs => lastWriteD x xs

/-! ### Concrete data for the end-to-end scenarios -/

/-- A well-formed listing card, indexed so URLs differ. -/
def demoCard (i : Nat) : RawCard :=
  { titleText := some ("Engineer " ++ toString i)
    linkHref := some ("https://www.naukri.com/job" ++ toString i)
    companyText := some "Acme"
    locationText := some "Pune"
    expText := none
    salaryText := none
    skillTexts := [some "Java"]
    descText := none
    dateText := none }

/-- Search pages for the end-to-end scenario: page 1 holds ten
well-formed cards, every later page loads with no cards at all. -/
def demoPageEnv : PageEnv := fun n =>
  if n = 1 then .loaded ((List.range 10).map demoCard) else .loaded []

/-- A detail environment where every navigation throws. -/
def demoFaultEnv : DetailEnv := fun _ => .navFault

/-- A fully populated detail record. -/
def demoRichDetail : JobDetail :=
  { fullDescription := "Great role building services"
    keySkills := ["Node.js"]
    industryTypes := ["IT Services"]
    jobPostedAt := "2 days ago"
    salaryOffered := "10-15 Lacs PA"
    totalVacancy := "4" }

/-- A detail environment where exactly the third job (URL suffix job3)
faults during navigation and every other job page succeeds. -/
def demoBatchEnv : DetailEnv := fun u =>
  if u = "https://www.naukri.com/job3" then .navFault else .ok demoRichDetail

/-- Configuration with detail scraping off. -/
def demoConfig : ScrapeConfig :=
  { experience := none, skills := [], scrapeDetails := false }

/-- Configuration with detail scraping on. -/
def demoConfigDetails : ScrapeConfig :=
  { experience := none, skills := [], scrapeDetails := true }

/-- A listing record as the listing pass produces it, with a non-empty
card skill list. -/
def demoListingJob : JobListing :=
  { title := "Dev"
    company := "Acme"
    location := "Pune"
    experience := "Not specified"
    salary := "Not disclosed"
    skills := ["Java"]
    description := ""
    jobUrl := "https://www.naukri.com/job3"
    postedDate := "Not specified"
    searchKeyword := "test" }

/-- A second listing record with different skills. -/
def demoListingJob2 : JobListing :=
  { title := "DBA"
    company := "Acme"
    location := "Pune"
    experience := "Not specified"
    salary := "Not disclosed"
    skills := ["SQL"]
    description := ""
    jobUrl := "https://www.naukri.com/job7"
    postedDate := "Not specified"
    searchKeyword := "test" }

/-- A card whose optional fields are all unresolved. -/
def demoRawCard : RawCard :=
  { titleText := some "Dev"
    linkHref := some "https://www.naukri.com/job1"
    companyText := some "Acme"
    locationText := none
    expText := none
    salaryText := none
    skillTexts := []
    descText := none
    dateText := none }

/-- The record the card body emits for the card above. -/
def demoEmitted : JobListing :=
  { title := "Dev"
    company := "Acme"
    location := "Not specified"
    experience := "Not specified"
    salary := "Not disclosed"
    skills := []
    description := ""
    jobUrl := "https://www.naukri.com/job1"
    postedDate := "Not specified"
    searchKeyword := "kw" }

/-! ### Helper lemmas -/

theorem str_append_assoc (a b c : String) : a ++ b ++ c = a ++ (b ++ c) := by
  apply String.ext
  simp [String.data_append]

theorem str_append_empty (s : String) : s ++ "" = s := by
  apply String.ext
  simp [String.data_append]

theorem jobs_dash_merge (X : String) : "-jobs" ++ ("-" ++ X) = "-jobs-" ++ X := by
  rw [← str_append_assoc]
  have h : ("-jobs" ++ "-" : String) = "-jobs-" := by decide
  rw [h]

theorem jobs_query_merge (X : String) : "-jobs" ++ ("?k=" ++ X) = "-jobs?k=" ++ X := by
  rw [← str_append_assoc]
  have h : ("-jobs" ++ "?k=" : String) = "-jobs?k=" := by decide
  rw [h]

theorem jsOr_empty (a : String) : jsOr a "" = a := by
  unfold jsOr
  split
  · simp_all
  · rfl

theorem mem_of_mem_dedupFirstAux (x : String) :
    ∀ (seen l : List String), x ∈ dedupFirstAux seen l → x ∈ l := by
  intro seen l
  induction l generalizing seen with
  | nil => intro h; simp [dedupFirstAux] at h
  | cons a as ih =>
    intro h
    unfold dedupFirstAux at h
    split at h
    · exact List.mem_cons_of_mem _ (ih _ h)
    · rcases List.mem_cons.mp h with h | h
      · exact h ▸ List.mem_cons_self _ _
      · exact List.mem_cons_of_mem _ (ih _ h)

theorem mem_of_mem_matchSkills (J C : List String) (x : String)
    (hx : x ∈ matchSkills J C) : x ∈ J := by
  unfold matchSkills at hx
  split at hx
  · simp at hx
  · exact (List.mem_filter.mp hx).1

theorem any_map_normalized (l : List String) (a : String) :
    (l.map (fun s => jsTrim (jsToLower s))).any (fun configSkill =>
        jsIncludes (jsTrim (jsToLower a)) configSkill ||
        jsIncludes configSkill (jsTrim (jsToLower a)))
      = l.any (fun c =>
        jsIncludes (jsTrim (jsToLower c)) (jsTrim (jsToLower a)) ||
        jsIncludes (jsTrim (jsToLower a)) (jsTrim (jsToLower c))) := by
  induction l with
  | nil => rfl
  | cons c cs ih =>
    simp only [List.map_cons, List.any_cons, ih]
    cases jsIncludes (jsTrim (jsToLower a)) (jsTrim (jsToLower c)) <;>
      cases jsIncludes (jsTrim (jsToLower c)) (jsTrim (jsToLower a)) <;> simp

theorem scrapePages_isErr_false (env : PageEnv) (denv : DetailEnv) (kw : String)
    (cfg : ScrapeConfig) :
    ∀ (left p : Nat) (acc : List EnrichedJob), 2 ≤ p →
      isErr (scrapePages env denv kw cfg p left acc) = false := by
  intro left
  induction left with
  | zero => intro p acc hp; rfl
  | succ n ih =>
    intro p acc hp
    cases h1 : env p with
    | navFault =>
      have hne : p ≠ 1 := by omega
      simp [scrapePages, h1, hne, isErr]
    | noCards => simp [scrapePages, h1, isErr]
    | loaded cards =>
      simp only [scrapePages, h1]
      split
      · rfl
      · exact ih (p + 1) _ (by omega)

theorem foldl_write_eq_lastWriteD {α β : Type} (f : α → Option β) :
    ∀ (l : List α) (init : β),
      l.foldl (fun acc x => (f x).getD acc) init = lastWriteD init (l.filterMap f) := by
  intro l
  induction l with
  | nil => intro init; rfl
  | cons x xs ih =>
    intro init
    simp only [List.foldl_cons, List.filterMap_cons]
    cases h : f x with
    | none => simp [ih]
    | some v => simp [ih, lastWriteD]

theorem lastWriteD_ne_nil {α : Type} (a b : α) :
    ∀ (l : List α), l ≠ [] → lastWriteD a l = lastWriteD b l := by
  intro l hl
  cases l with
  | nil => exact absurd rfl hl
  | cons x xs => rfl

/-! ### Claims about the skill matcher -/

/-- C6: matchSkills returns the empty list whenever either input list is
empty; in particular an empty configured-skill set yields no matches for
any job-skill list. -/
theorem C6_matchSkills_empty_guard :
    ∀ (J C : List String), matchSkills J [] = [] ∧ matchSkills [] C = [] := by
  intro J C
  constructor
  · unfold matchSkills
    simp
  · unfold matchSkills
    simp

/-- C3: on non-empty inputs matchSkills returns exactly the job skills,
in their original form, whose normalization has a bidirectional
substring hit with the normalization of some configured skill; the two
quoted examples evaluate as the claim states. -/
theorem C3_match_is_normalized_filter :
    (∀ (J C : List String), J ≠ [] → C ≠ [] →
      matchSkills J C = J.filter (specMatchPred C))
    ∧ matchSkills ["Node.JS"] ["node.js"] = ["Node.JS"]
    ∧ matchSkills ["ReactJS Developer"] ["react"] ≠ [] := by
  refine ⟨?_, by decide, by decide⟩
  intro J C hJ hC
  cases J with
  | nil => exact absurd rfl hJ
  | cons j js =>
    cases C with
    | nil => exact absurd rfl hC
    | cons c cs =>
      unfold matchSkills specMatchPred
      rw [if_neg (by simp)]
      apply List.filter_congr
      intro a _
      exact any_map_normalized (c :: cs) a

/-- C3 witness: the filter characterization applied at a concrete
non-empty pair of skill lists. -/
theorem C3_match_is_normalized_filter_witness :
    matchSkills ["js"] ["JS "] = (["js"].filter (specMatchPred ["JS "])) :=
  C3_match_is_normalized_filter.1 ["js"] ["JS "] (by decide) (by decide)

/-- C7: every matched skill is drawn from the job-skill input, and in an
enriched job every matched skill comes from the listing skills or from
the keySkills of the job. -/
theorem C7_matched_skills_subset :
    (∀ (J C : List String) (x : String), x ∈ matchSkills J C → x ∈ J)
    ∧ (∀ (env : DetailEnv) (cs : List String) (lbl : String) (job : JobListing)
        (x : String), x ∈ (enrichJob env cs lbl job).matchedSkills →
          x ∈ job.skills ∨ x ∈ (enrichJob env cs lbl job).keySkills) := by
  constructor
  · intro J C x hx
    exact mem_of_mem_matchSkills J C x hx
  · intro env cs lbl job x hx
    have hx1 : x ∈ matchSkills
        (jsSetDedup (job.skills ++ (enrichJob env cs lbl job).keySkills)) cs := by
      simpa [enrichJob] using hx
    have hx2 := mem_of_mem_matchSkills _ _ _ hx1
    have hx3 := mem_of_mem_dedupFirstAux x _ _ hx2
    exact List.mem_append.mp hx3

/-- C7 witness: the subset property applied at a concrete match. -/
theorem C7_matched_skills_subset_witness : "Node.JS" ∈ ["Node.JS"] :=
  C7_matched_skills_subset.1 ["Node.JS"] ["node.js"] "Node.JS" (by decide)

/-! ### Claim about the search URL -/

/-- C1: for every keyword, page number at least 1 and optional
experience bounds, buildSearchUrl returns exactly the URL of the spec
template, with the page suffix exactly for pages past the first and one
experience query fragment per defined bound; the three quoted examples
evaluate as the claim states. -/
theorem C1_searchUrl_matches_template :
    (∀ (keyword : String) (pageNum : Nat) (experience : Option Experience),
      1 ≤ pageNum →
        buildSearchUrl keyword pageNum experience
          = specSearchUrl keyword pageNum experience)
    ∧ buildSearchUrl "Node JS Developer" 1 none
        = "https://www.naukri.com/node-js-developer-jobs?k=Node%20JS%20Developer"
    ∧ buildSearchUrl "Node JS Developer" 3 none
        = "https://www.naukri.com/node-js-developer-jobs-3?k=Node%20JS%20Developer"
    ∧ buildSearchUrl "Node JS Developer" 1 (some { min := some 2, max := some 5 })
        = "https://www.naukri.com/node-js-developer-jobs?k=Node%20JS%20Developer&niyoMinExp=2&niyoMaxExp=5" := by
  refine ⟨?_, by decide, by decide, by decide⟩
  intro keyword pageNum experience hp
  simp only [buildSearchUrl, specSearchUrl]
  by_cases h1 : pageNum = 1
  · subst h1
    rw [if_pos rfl, if_neg (by omega : ¬ (2 ≤ 1))]
    cases experience with
    | none => simp [str_append_assoc, str_append_empty, jobs_query_merge]
    | some e =>
      rcases e with ⟨mn, mx⟩
      cases mn <;> cases mx <;>
        simp [str_append_assoc, str_append_empty, jobs_query_merge]
  · rw [if_neg h1, if_pos (by omega)]
    cases experience with
    | none => simp [str_append_assoc, str_append_empty, jobs_dash_merge]
    | some e =>
      rcases e with ⟨mn, mx⟩
      cases mn <;> cases mx <;>
        simp [str_append_assoc, str_append_empty, jobs_dash_merge]

/-- C1 witness: the template equality applied at a concrete keyword,
page and half-defined experience filter. -/
theorem C1_searchUrl_matches_template_witness :
    buildSearchUrl "data analyst" 2 (some { min := none, max := some 3 })
      = specSearchUrl "data analyst" 2 (some { min := none, max := some 3 }) :=
  C1_searchUrl_matches_template.1 "data analyst" 2
    (some { min := none, max := some 3 }) (by decide)

/-! ### Claim about the listing-pass gate -/

/-- C4: a record appears in the listing-pass output exactly when its
card yields a non-empty title, a non-empty company and a resolvable job
URL; emission is decided by those three fields alone, and every emitted
record carries the search keyword and the sentinel defaults for its
unresolved optional fields. -/
theorem C4_listing_discard_rule :
    (∀ (kw : String) (cards : List RawCard) (j : JobListing),
      j ∈ extractJobCards kw cards ↔ ∃ c ∈ cards, emitCard kw c = some j)
    ∧ (∀ (kw : String) (c : RawCard),
      (emitCard kw c).isSome = true ↔
        (resolveText c.titleText ≠ "" ∧ resolveText c.companyText ≠ ""
          ∧ c.linkHref.getD "" ≠ ""))
    ∧ (∀ (kw : String) (c : RawCard) (j : JobListing), emitCard kw c = some j →
        j.searchKeyword = kw
        ∧ (resolveText c.locationText = "" → j.location = "Not specified")
        ∧ (resolveText c.expText = "" → j.experience = "Not specified")
        ∧ (resolveText c.salaryText = "" → j.salary = "Not disclosed")
        ∧ (resolveText c.dateText = "" → j.postedDate = "Not specified")
        ∧ (resolveText c.descText = "" → j.description = "")) := by
  refine ⟨?_, ?_, ?_⟩
  · intro kw cards j
    exact List.mem_filterMap
  · intro kw c
    simp only [emitCard, jsOr_empty]
    split
    · rename_i h
      simpa using h
    · rename_i h
      simpa using h
  · intro kw c j h
    simp only [emitCard, jsOr_empty] at h
    split at h
    · rename_i hcond
      cases h
      refine ⟨rfl, ?_, ?_, ?_, ?_, ?_⟩ <;>
        · intro hempty
          simp [jsOr, hempty]
    · exact Option.noConfusion h

/-- C4 witness: the emitted-record facts applied at a concrete card
whose location query is unresolved. -/
theorem C4_listing_discard_rule_witness : demoEmitted.location = "Not specified" :=
  ((C4_listing_discard_rule.2.2 "kw" demoRawCard demoEmitted (by decide)).2.1) (by decide)

/-! ### Claim about pagination error handling -/

/-- C2: with at least one page to scrape, scrapeJobs raises exactly when
the first page navigation faults; a fault on a page past the first, a
card-wait timeout, or zero extracted cards each end the loop returning
the accumulated records; and the quoted two-page scenario returns ten
records without error. -/
theorem C2_first_page_fault_semantics :
    (∀ (env : PageEnv) (denv : DetailEnv) (kw : String) (maxPages : Nat)
        (cfg : ScrapeConfig), 1 ≤ maxPages →
      (isErr (scrapeJobs env denv kw maxPages cfg) = true ↔ env 1 = .navFault))
    ∧ (∀ (env : PageEnv) (denv : DetailEnv) (kw : String) (cfg : ScrapeConfig)
        (p pagesLeft : Nat) (acc : List EnrichedJob), 2 ≤ p → env p = .navFault →
      scrapePages env denv kw cfg p (pagesLeft + 1) acc = .ok acc)
    ∧ (∀ (env : PageEnv) (denv : DetailEnv) (kw : String) (cfg : ScrapeConfig)
        (p pagesLeft : Nat) (acc : List EnrichedJob), env p = .noCards →
      scrapePages env denv kw cfg p (pagesLeft + 1) acc = .ok acc)
    ∧ (∀ (env : PageEnv) (denv : DetailEnv) (kw : String) (cfg : ScrapeConfig)
        (p pagesLeft : Nat) (acc : List EnrichedJob) (cards : List RawCard),
        env p = .loaded cards → extractJobCards kw cards = [] →
      scrapePages env denv kw cfg p (pagesLeft + 1) acc = .ok acc)
    ∧ resultCount (scrapeJobs demoPageEnv demoFaultEnv "test" 2 demoConfig) = some 10 := by
  refine ⟨?_, ?_, ?_, ?_, by decide⟩
  · intro env denv kw maxPages cfg h
    obtain ⟨m, rfl⟩ : ∃ m, maxPages = m + 1 := ⟨maxPages - 1, by omega⟩
    unfold scrapeJobs
    cases h1 : env 1 with
    | navFault => simp [scrapePages, h1, isErr]
    | noCards => simp [scrapePages, h1, isErr]
    | loaded cards =>
      simp only [scrapePages, h1]
      split
      · simp [isErr, h1]
      · rw [scrapePages_isErr_false env denv kw cfg m 2 _ (by omega)]
        simp [h1]
  · intro env denv kw cfg p pagesLeft acc hp henv
    have hne : p ≠ 1 := by omega
    simp [scrapePages, henv, hne]
  · intro env denv kw cfg p pagesLeft acc henv
    simp [scrapePages, henv]
  · intro env denv kw cfg p pagesLeft acc cards henv hext
    simp [scrapePages, henv, hext]

/-- C2 witness: a first-page navigation fault raises, at a concrete
environment where every navigation faults. -/
theorem C2_first_page_fault_semantics_witness :
    isErr (scrapeJobs (fun _ => PageOutcome.navFault) demoFaultEnv "test" 1 demoConfig) = true :=
  (C2_first_page_fault_semantics.1 (fun _ => PageOutcome.navFault) demoFaultEnv
    "test" 1 demoConfig (by decide)).mpr rfl

/-! ### Claims about detail-enrichment fault isolation -/

/-- C5 counterexample: a faulting detail pass does not leave every
detail field of the merged job at its sentinel default — for a job whose
card carried a skill, the merged keySkills is the listing skill list,
not the empty default of the detail record. -/
theorem C5_counterexample :
    (enrichJob demoFaultEnv [] "" demoListingJob).keySkills
      ≠ defaultJobDetail.keySkills := by decide

/-- C5 amended: if the detail step faults, scrapeJobDetails returns the
all-default record instead of propagating; the merged job then has
fullDescription, industryTypes, jobPostedAt, salaryOffered and
totalVacancy at their sentinel defaults while keySkills falls back to
the listing skills; enrichment keeps one output record per input job,
and a job whose URL differs from the faulting one is enriched exactly as
it would be without the fault. -/
theorem C5_fault_isolation :
    (∀ (env : DetailEnv) (url : String),
      (env url = .navFault ∨ env url = .evalFault) →
        scrapeJobDetails env url = defaultJobDetail
        ∧ (∀ (cs : List String) (lbl : String) (job : JobListing),
            job.jobUrl = url →
              (enrichJob env cs lbl job).fullDescription = ""
              ∧ (enrichJob env cs lbl job).keySkills = job.skills
              ∧ (enrichJob env cs lbl job).industryTypes = []
              ∧ (enrichJob env cs lbl job).jobPostedAt = "Not specified"
              ∧ (enrichJob env cs lbl job).salaryOffered = "Not disclosed"
              ∧ (enrichJob env cs lbl job).totalVacancy = "Not specified"))
    ∧ (∀ (env : DetailEnv) (cs : List String) (lbl : String)
        (jobs : List JobListing),
        (jobs.map (enrichJob env cs lbl)).length = jobs.length)
    ∧ (∀ (env env2 : DetailEnv) (cs : List String) (lbl url : String)
        (job : JobListing), (∀ u, u ≠ url → env2 u = env u) →
        job.jobUrl ≠ url → enrichJob env2 cs lbl job = enrichJob env cs lbl job)
    ∧ resultCount (scrapeJobs demoPageEnv demoBatchEnv "test" 2 demoConfigDetails)
        = some 10 := by
  refine ⟨?_, ?_, ?_, by decide⟩
  · intro env url hfault
    have hdef : scrapeJobDetails env url = defaultJobDetail := by
      rcases hfault with h | h <;> simp [scrapeJobDetails, h]
    refine ⟨hdef, ?_⟩
    intro cs lbl job hurl
    subst hurl
    simp [enrichJob, hdef, defaultJobDetail, jsOr]
  · intro env cs lbl jobs
    exact List.length_map jobs _
  · intro env env2 cs lbl url job hagree hne
    have h : env2 job.jobUrl = env job.jobUrl := hagree job.jobUrl hne
    simp [enrichJob, scrapeJobDetails, h]

/-- C5 witness: the fault facts applied at a concrete environment where
every detail navigation faults, on a job whose card carried a skill. -/
theorem C5_fault_isolation_witness :
    (enrichJob demoFaultEnv [] "" demoListingJob).keySkills = demoListingJob.skills :=
  (((C5_fault_isolation.1 demoFaultEnv demoListingJob.jobUrl (Or.inl rfl)).2)
    [] "" demoListingJob rfl).2.1

/-! ### Claim about the keySkills fallback -/

/-- C10: with detail scraping on, the merged keySkills is the detail
result exactly when that result is non-empty, falls back to the listing
skills when the detail pass returned none (every fault case included),
and is empty only when both sources were empty. -/
theorem C10_keySkills_fallback :
    (∀ (env : DetailEnv) (cs : List String) (lbl : String) (job : JobListing),
      ((scrapeJobDetails env job.jobUrl).keySkills = [] →
          (enrichJob env cs lbl job).keySkills = job.skills)
      ∧ ((scrapeJobDetails env job.jobUrl).keySkills ≠ [] →
          (enrichJob env cs lbl job).keySkills
            = (scrapeJobDetails env job.jobUrl).keySkills)
      ∧ ((enrichJob env cs lbl job).keySkills = [] ↔
          ((scrapeJobDetails env job.jobUrl).keySkills = [] ∧ job.skills = [])))
    ∧ (∀ (env : DetailEnv) (url : String),
        (env url = .navFault ∨ env url = .evalFault) →
          (scrapeJobDetails env url).keySkills = []) := by
  constructor
  · intro env cs lbl job
    cases hks : (scrapeJobDetails env job.jobUrl).keySkills with
    | nil =>
      refine ⟨fun _ => ?_, fun hne => absurd rfl hne, ?_⟩
      · simp [enrichJob, hks]
      · simp [enrichJob, hks]
    | cons k ks =>
      refine ⟨fun hnil => by simp [hks] at hnil, fun _ => ?_, ?_⟩
      · simp [enrichJob, hks]
      · simp [enrichJob, hks]
  · intro env url hfault
    rcases hfault with h | h <;> simp [scrapeJobDetails, h, defaultJobDetail]

/-- C10 witness: the fallback applied at a concrete evaluation fault on
a job whose card carried a skill. -/
theorem C10_keySkills_fallback_witness :
    (enrichJob (fun _ => DetailOutcome.evalFault) [] "" demoListingJob2).keySkills
      = demoListingJob2.skills :=
  (C10_keySkills_fallback.1 (fun _ => DetailOutcome.evalFault) [] ""
    demoListingJob2).1 (by decide)

/-! ### Claim about vacancy-count precedence -/

/-- C8: vacancy resolution is two passes with last-writer-wins
precedence — the result always equals the last write of the regex pass
when that pass wrote at all (so the regex result overwrites the
label-pair result, whichever label pairs are present), and equals the
label-pair pass result (or the sentinel default) when the regex pass
found no match on any text node. -/
theorem C8_vacancy_last_writer_wins :
    (∀ (pairs : List (String × String)) (nodes : List String),
      resolveVacancy { labelPairs := pairs, textNodes := nodes }
        = lastWriteD (lastWriteD "Not specified" (pairs.filterMap vacancyLabelWrite))
            (nodes.filterMap vacancyNodeWrite))
    ∧ (∀ (pairs : List (String × String)) (nodes : List String),
        nodes.filterMap vacancyNodeWrite = [] →
          resolveVacancy { labelPairs := pairs, textNodes := nodes }
            = vacancyPass1 pairs)
    ∧ (∀ (pairs pairs2 : List (String × String)) (nodes : List String),
        nodes.filterMap vacancyNodeWrite ≠ [] →
          resolveVacancy { labelPairs := pairs, textNodes := nodes }
            = resolveVacancy { labelPairs := pairs2, textNodes := nodes }) := by
  have hkey : ∀ (pairs : List (String × String)) (nodes : List String),
      resolveVacancy { labelPairs := pairs, textNodes := nodes }
        = lastWriteD (lastWriteD "Not specified" (pairs.filterMap vacancyLabelWrite))
            (nodes.filterMap vacancyNodeWrite) := by
    intro pairs nodes
    unfold resolveVacancy vacancyPass2 vacancyPass1
    rw [foldl_write_eq_lastWriteD vacancyLabelWrite,
      foldl_write_eq_lastWriteD vacancyNodeWrite]
  refine ⟨hkey, ?_, ?_⟩
  · intro pairs nodes hnone
    rw [hkey, hnone]
    unfold vacancyPass1
    rw [foldl_write_eq_lastWriteD vacancyLabelWrite]
    rfl
  · intro pairs pairs2 nodes hsome
    rw [hkey, hkey]
    exact lastWriteD_ne_nil _ _ _ hsome

/-- C8 witness: a page where no text node matches the openings regex
keeps the label-pair result. -/
theorem C8_vacancy_last_writer_wins_witness :
    resolveVacancy { labelPairs := [("Vacancy", "12 posts")], textNodes := ["hello"] }
      = vacancyPass1 [("Vacancy", "12 posts")] :=
  C8_vacancy_last_writer_wins.2.1 [("Vacancy", "12 posts")] ["hello"] (by decide)

/-! ### Claim about closing the detail page context -/

/-- C9 counterexample: on a navigation fault the detail-page context is
opened but never closed before scrapeJobDetails returns — the close
event is missing from the effect trace, so the context is not closed on
every execution path. -/
theorem C9_counterexample :
    ¬ (DetailEvent.closePage ∈ detailTrace demoFaultEnv "https://www.naukri.com/job1") := by
  decide

/-- C9 amended: the secondary page context is opened on every invocation
and closed exactly on the success path; on a navigation or evaluation
fault the catch block only logs, so the close call is skipped and the
context leaks. -/
theorem C9_close_only_on_success :
    ∀ (env : DetailEnv) (url : String),
      (DetailEvent.openPage ∈ detailTrace env url)
      ∧ ((DetailEvent.closePage ∈ detailTrace env url) ↔ ∃ d, env url = .ok d) := by
  intro env url
  cases h : env url with
  | navFault => simp [detailTrace, h]
  | evalFault => simp [detailTrace, h]
  | ok d => simp [detailTrace, h]
